import Mathlib

/-!
Verification of the CloudRAID buffer manager (`include/mega/raid.h`).

The repository ships only the header declaring `RaidBufferManager`; the
implementations of its member functions are not part of the sources, so the
definitions below are modelled from the specification of the reconstruction
engine (5 data shards + 1 parity shard, 16-byte sectors, 80-byte stripe
lines), keeping the header's names and constants.

Layout: all definitions first, then the theorems.
-/

namespace CloudRaid

/-- Number of raid parts, from `enum { RAIDPARTS = 6 }` in raid.h. -/
def RAIDPARTS : Nat := 6

/-- Sector size in bytes, from `enum { RAIDSECTOR = 16 }` in raid.h. -/
def RAIDSECTOR : Nat := 16

/-- Stripe-line size in bytes, from `enum { RAIDLINE = ((RAIDPARTS - 1)*RAIDSECTOR) }`. -/
def RAIDLINE : Nat := (RAIDPARTS - 1) * RAIDSECTOR

/-- Pause threshold, from `enum { RaidReadAheadChunksPausePoint = 8 }` in raid.h. -/
def RaidReadAheadChunksPausePoint : Nat := 8

/-- Unpause threshold, from `enum { RaidReadAheadChunksUnpausePoint = 4 }` in raid.h. -/
def RaidReadAheadChunksUnpausePoint : Nat := 4

/-- Error threshold, from the raid.h:154 comment: "Stop trying to recover if
we hit 3 total", and spec §4.3 (failure threshold 3). -/
def raidErrorThreshold : Nat := 3

/-- Modelled from the spec: the body of `RaidBufferManager::raidPartSize`
(declared at raid.h:89, implementation not in the sources).  Per §4.2 of the
spec, `stripe_size` is a pure function: data shards 0..4 receive the sectors
of each stripe line round-robin, so the last partial stripe line distributes
its remainder sector-by-sector across the data shards in order; the parity
shard (index 5) stores one parity sector per stripe line, its size equalling
the size of the largest data shard. -/
def raidPartSize (part : Nat) (fullfilesize : Nat) : Nat :=
  let fullLines := fullfilesize / RAIDLINE
  let r := fullfilesize % RAIDLINE
  if part < RAIDPARTS - 1 then
    fullLines * RAIDSECTOR + min RAIDSECTOR (r - part * RAIDSECTOR)
  else
    fullLines * RAIDSECTOR + min RAIDSECTOR r

/-! ## Parity recovery (one stripe line) -/

/-- A 16-byte sector, as the byte value at each offset. -/
def Sector : Type := Fin RAIDSECTOR → Nat

/-- Modelled from the spec: the parity sector covering one stripe line is the
byte-wise XOR of the five data sectors of that line (§4.1: the code is a
simple XOR parity code). -/
def paritySector (d : Fin (RAIDPARTS - 1) → Sector) : Sector :=
  fun j => ((List.finRange (RAIDPARTS - 1)).map (fun i => d i j)).foldr Nat.xor 0

/-- Modelled from the spec: the body of
`RaidBufferManager::recoverSectorFromParity` (declared at raid.h:160,
implementation not in the sources).  §4.1: `recover_sector` is a byte-wise
XOR fold of the five sector buffers that are present. -/
def recoverSectorFromParity (inputbufs : List Sector) : Sector :=
  fun j => (inputbufs.map (fun s => s j)).foldr Nat.xor 0

/-- The six sectors of one stripe line: the five data sectors followed by the
parity sector, in shard order 0..5 (shard 5 = parity). -/
def lineSectors (d : Fin (RAIDPARTS - 1) → Sector) : List Sector :=
  ((List.finRange (RAIDPARTS - 1)).map d) ++ [paritySector d]

/-- Modelled from the spec: the fast path of `combine()` for one stripe line
(raid.h:158-159 `combineRaidParts`, implementation not in the sources) —
when all five data shards have the line's bytes, concatenate the data
sectors directly, no XOR needed (§4.1). -/
def combineRaidLine (d : Fin (RAIDPARTS - 1) → Sector) : Fin RAIDLINE → Nat :=
  fun pos =>
    d ⟨pos.val / RAIDSECTOR, by
        have h := pos.isLt
        simp only [RAIDLINE, RAIDSECTOR, RAIDPARTS] at *
        omega⟩
      ⟨pos.val % RAIDSECTOR, by
        simp only [RAIDSECTOR]
        omega⟩

/-- Modelled from the spec: the data sectors of a line after dropping shard
`m` and XOR-recovering it from the five remaining sectors (§4.1:
`missing_sector = data0 ⊕ data1 ⊕ data2 ⊕ data3 ⊕ data4 ⊕ parity`, applied
with whichever 5 of the 6 sector values are present).  When the missing
shard is the parity shard no data sector needs recovery. -/
def recoveredData (d : Fin (RAIDPARTS - 1) → Sector) (m : Fin RAIDPARTS) :
    Fin (RAIDPARTS - 1) → Sector :=
  if h : m.val < RAIDPARTS - 1 then
    Function.update d ⟨m.val, h⟩
      (recoverSectorFromParity ((lineSectors d).eraseIdx m.val))
  else
    d

/-! ## Pieces and the resume model -/

/-- `RaidBufferManager::FilePiece` (raid.h:44-53): an owned byte buffer
tagged with its file position.  The per-region MAC map is owned by the mode
adapters and plays no role in the claims, so it is not carried here. -/
structure FilePiece where
  pos : Nat
  buf : List Nat
deriving DecidableEq

/-- Modelled from the spec: the `resumewastedbytes` value established by
`setIsRaid` for a raid download resuming at `resumepos` (raid.h:150-152:
start reading on a sector boundary but skip outputting data until we match
where we got to last time; §3 invariant `0 ≤ resume-skip-bytes <
stripe-line-size`). -/
def resumewastedbytes (resumepos : Nat) : Nat := resumepos % RAIDLINE

/-- Modelled from the spec: the first output piece produced by the combine
step after resuming at `resumepos`.  Acquisition starts at the stripe-line
boundary at or below `resumepos`; `nlines` whole stripe lines of the file
(`file` gives the byte at each file offset) are combined, and the leading
`resumewastedbytes` bytes are computed but not emitted (§4.1), so the piece
is positioned at the resume point. -/
def firstOutputPiece (file : Nat → Nat) (resumepos : Nat) (nlines : Nat) : FilePiece :=
  let acquirestart := resumepos - resumepos % RAIDLINE
  { pos := acquirestart + resumewastedbytes resumepos
  , buf := ((List.range (nlines * RAIDLINE)).map
      (fun k => file (acquirestart + k))).drop (resumewastedbytes resumepos) }

/-! ## The combine step over the shard queues -/

/-- The part of the manager state that `combineRaidParts` reads and writes:
per-shard input queues (modelled as the byte contents buffered beyond
`raidpartspos`, flattening the queued `FilePiece`s), the shard read cursor
`raidpartspos` and the output cursor `outputfilepos` (raid.h:133, 145, 148). -/
structure CombineState where
  raidinputparts : Fin RAIDPARTS → List Nat
  raidpartspos : Nat
  outputfilepos : Nat

/-- Number of whole stripe lines every shard has buffered beyond
`raidpartspos`: each shard contributes one `RAIDSECTOR` per line, so this is
the minimum over the six queues of queued-bytes / sector-size (§4.1: combine
runs while every shard has at least one full stripe line's worth of queued
bytes). -/
def combineLinesAvailable (s : CombineState) : Nat :=
  min ((s.raidinputparts ⟨0, by decide⟩).length / RAIDSECTOR)
    (min ((s.raidinputparts ⟨1, by decide⟩).length / RAIDSECTOR)
      (min ((s.raidinputparts ⟨2, by decide⟩).length / RAIDSECTOR)
        (min ((s.raidinputparts ⟨3, by decide⟩).length / RAIDSECTOR)
          (min ((s.raidinputparts ⟨4, by decide⟩).length / RAIDSECTOR)
            ((s.raidinputparts ⟨5, by decide⟩).length / RAIDSECTOR)))))

/-- The combined output bytes for `lines` whole stripe lines: output offset
`p` comes from data shard `(p % RAIDLINE) / RAIDSECTOR`, at byte
`(p / RAIDLINE) * RAIDSECTOR + p % RAIDSECTOR` of its queue (the data
sectors of each line concatenated in shard order). -/
def combinedLineBytes (s : CombineState) (lines : Nat) : List Nat :=
  (List.range (lines * RAIDLINE)).map fun p =>
    (s.raidinputparts ⟨p % RAIDLINE / RAIDSECTOR, by
        simp only [RAIDLINE, RAIDSECTOR, RAIDPARTS]
        omega⟩).getD
      (p / RAIDLINE * RAIDSECTOR + p % RAIDSECTOR) 0

/-- Modelled from the spec: one invocation of
`RaidBufferManager::combineRaidParts` (declared at raid.h:157-159,
implementation not in the sources) in the configuration where all six
connections are active: it combines every whole stripe line buffered on all
shards into one output piece positioned at `outputfilepos`, rolls the
consumed prefix off every input queue and advances both cursors; when no
whole line is available it does nothing and produces no output (§4.1). -/
def combineRaidParts (s : CombineState) : CombineState × Option FilePiece :=
  if combineLinesAvailable s = 0 then (s, none)
  else
    ({ raidinputparts := fun i =>
         (s.raidinputparts i).drop (combineLinesAvailable s * RAIDSECTOR)
     , raidpartspos := s.raidpartspos + combineLinesAvailable s * RAIDSECTOR
     , outputfilepos := s.outputfilepos + combineLinesAvailable s * RAIDLINE },
     some { pos := s.outputfilepos, buf := combinedLineBytes s (combineLinesAvailable s) })

/-! ## The manager state and its operations -/

/-- The fields of `RaidBufferManager` (raid.h:107-155) that the claims are
about, with the header's names.  `transferFailed` is modelled from the spec
(§4.3/§7: reaching the failure threshold is a terminal condition — the
transfer must fail); the header surfaces it only as the verdict of
`tryRaidHttpGetErrorRecovery`. -/
structure BufState where
  is_raid : Bool
  raidKnown : Bool
  tempurls : List String
  connectionPaused : Fin RAIDPARTS → Bool
  raidrequestpartpos : Fin RAIDPARTS → Nat
  raidinputparts : Fin RAIDPARTS → List FilePiece
  raidinputparts_recovery : Fin RAIDPARTS → List (Nat × FilePiece)
  asyncoutputbuffers : Nat → Option FilePiece
  raidpartspos : Nat
  outputfilepos : Nat
  resumewastedbytes : Nat
  useOnlyFiveRaidConnections : Bool
  unusedRaidConnection : Fin RAIDPARTS
  raidHttpGetErrorCount : Fin RAIDPARTS → Nat
  transferFailed : Bool

/-- `RaidBufferManager()` (raid.h:97): the state before `setIsRaid` — no
URLs yet, nothing buffered, no errors, six connections. -/
def initBufState : BufState :=
  { is_raid := false, raidKnown := false, tempurls := []
  , connectionPaused := fun _ => false
  , raidrequestpartpos := fun _ => 0
  , raidinputparts := fun _ => []
  , raidinputparts_recovery := fun _ => []
  , asyncoutputbuffers := fun _ => none
  , raidpartspos := 0, outputfilepos := 0, resumewastedbytes := 0
  , useOnlyFiveRaidConnections := false, unusedRaidConnection := ⟨0, by decide⟩
  , raidHttpGetErrorCount := fun _ => 0, transferFailed := false }

/-- `RaidBufferManager::isRaid` (raid.h:59). -/
def isRaid (s : BufState) : Bool := s.is_raid

/-- Modelled from the spec: the body of `RaidBufferManager::setIsRaid`
(declared at raid.h:56, implementation not in the sources).  It extracts the
URL vector, decides raid-ness from its length (6 entries select raid, 1
selects non-raid — raid.h:122-123, §6), and records the resume skip for a
raid resume at `resumepos` not aligned to a stripe line. -/
def setIsRaid (tempUrls : List String) (resumepos : Nat) (s : BufState) : BufState :=
  { s with
    is_raid := decide (tempUrls.length = RAIDPARTS)
  , raidKnown := true
  , tempurls := tempUrls
  , resumewastedbytes :=
      if tempUrls.length = RAIDPARTS then resumepos % RAIDLINE else 0 }

/-- Total byte length buffered in a shard's input queue. -/
def inputPartsLen (q : List FilePiece) : Nat := (q.map (fun p => p.buf.length)).sum

/-- Modelled from the spec: the body of
`RaidBufferManager::updateUrlsAndResetPos` (declared at raid.h:62,
implementation not in the sources).  In case URLs expire it stores the fresh
URL list and resets each connection's request cursor to the end of the data
already buffered for that shard, so that downloading continues without
wasting any data; nothing buffered or produced is touched. -/
def updateUrlsAndResetPos (s : BufState) (tempUrls : List String) : BufState :=
  { s with
    tempurls := tempUrls
  , raidrequestpartpos := fun i => s.raidpartspos + inputPartsLen (s.raidinputparts i) }

/-- Modelled from the spec: the body of `RaidBufferManager::submitBuffer`
(declared at raid.h:65, implementation not in the sources).  §4.1: it takes
ownership of a freshly fetched piece and appends it to the shard's input
queue — or, when that shard is currently the excluded one of a degraded
five-connection session, to its recovery store instead. -/
def submitBuffer (s : BufState) (conn : Fin RAIDPARTS) (piece : FilePiece) : BufState :=
  if s.useOnlyFiveRaidConnections ∧ s.unusedRaidConnection = conn then
    { s with raidinputparts_recovery := (Function.update s.raidinputparts_recovery conn (s.raidinputparts_recovery conn ++ [(piece.pos, piece)])) }
  else
    { s with raidinputparts := (Function.update s.raidinputparts conn (s.raidinputparts conn ++ [piece])) }

/-- Modelled from the spec: the body of
`RaidBufferManager::getAsyncOutputBufferPointer` (declared at raid.h:68,
implementation not in the sources).  It hands out the produced piece held
for the connection; buffer ownership is retained by the manager, and the
piece stays re-accessible in case retries are needed (raid.h:138-139), so
the state is returned unchanged. -/
def getAsyncOutputBufferPointer (s : BufState) (connectionNum : Nat) :
    Option FilePiece × BufState :=
  (s.asyncoutputbuffers connectionNum, s)

/-- Modelled from the spec: the body of
`RaidBufferManager::bufferWriteCompleted` (declared at raid.h:71,
implementation not in the sources).  The piece written out for the
connection can now be discarded, so its output-buffer slot is emptied. -/
def bufferWriteCompleted (s : BufState) (connectionNum : Nat) : BufState :=
  { s with asyncoutputbuffers := fun c =>
      if c = connectionNum then none else s.asyncoutputbuffers c }

/-- Modelled from the spec: the body of
`RaidBufferManager::tryRaidHttpGetErrorRecovery` (declared at raid.h:92,
implementation not in the sources).  §4.3: it increments the connection's
error count; below the failure threshold it migrates the shard's queued
pieces into its recovery store, marks the shard as the unused connection of
a degraded five-connection session and reports recoverable (`true`);
reaching the threshold is terminal — the transfer must fail and the verdict
is `false`. -/
def tryRaidHttpGetErrorRecovery (s : BufState) (errorConnectionNum : Fin RAIDPARTS) :
    BufState × Bool :=
  let newCount := s.raidHttpGetErrorCount errorConnectionNum + 1
  let s' := { s with raidHttpGetErrorCount :=
      Function.update s.raidHttpGetErrorCount errorConnectionNum newCount }
  if newCount < raidErrorThreshold then
    ({ s' with
        useOnlyFiveRaidConnections := true
      , unusedRaidConnection := errorConnectionNum
      , raidinputparts_recovery :=
          Function.update s'.raidinputparts_recovery errorConnectionNum
            (s'.raidinputparts_recovery errorConnectionNum
              ++ (s'.raidinputparts errorConnectionNum).map (fun p => (p.pos, p)))
      , raidinputparts :=
          Function.update s'.raidinputparts errorConnectionNum [] },
     true)
  else
    ({ s' with transferFailed := true }, false)

/-- Modelled from the spec: the bookkeeping applied when a fetch for a
connection succeeds (raid.h:154: a successful fetch resets the error count
for a connection; §4.3: for a previously excluded shard the exclusion is
lifted). -/
def raidFetchSucceeded (s : BufState) (conn : Fin RAIDPARTS) : BufState :=
  { s with
    raidHttpGetErrorCount := Function.update s.raidHttpGetErrorCount conn 0
  , useOnlyFiveRaidConnections :=
      if s.unusedRaidConnection = conn then false else s.useOnlyFiveRaidConnections }

/-- Modelled from the spec: §7 — a terminal reconstruction failure is
surfaced as an unrecoverable transfer failure and no further fetches are
attempted. -/
def furtherFetchesAllowed (s : BufState) : Bool := !s.transferFailed

/-- The set of shards currently treated as excluded: the single
`unusedRaidConnection` when degraded to five connections, nobody otherwise
(raid.h:116-120). -/
def excludedShards (s : BufState) : Finset (Fin RAIDPARTS) :=
  if s.useOnlyFiveRaidConnections then {s.unusedRaidConnection} else ∅

/-- Modelled from the spec: the pause-flag update the position planner
applies to a connection whose read-ahead lead over the slowest active peer
is `chunksAhead` chunks (§4.2: paused once ahead by more than the pause
threshold, unpaused only once the lead shrinks below the lower unpause
threshold — a hysteresis band; raid.h:104-105, 126-127). -/
def updateConnectionPaused (paused : Bool) (chunksAhead : Nat) : Bool :=
  if paused then decide (RaidReadAheadChunksUnpausePoint ≤ chunksAhead)
  else decide (RaidReadAheadChunksPausePoint < chunksAhead)

/-! ## Theorems -/

theorem natXor_eq (a b : Nat) : Nat.xor a b = a ^^^ b := rfl

theorem xor_cancel_left (a b : Nat) : a ^^^ (a ^^^ b) = b := by
  rw [← Nat.xor_assoc, Nat.xor_self, Nat.zero_xor]

theorem xor_left_comm (a b c : Nat) : a ^^^ (b ^^^ c) = b ^^^ (a ^^^ c) := by
  rw [← Nat.xor_assoc, Nat.xor_comm a b, Nat.xor_assoc]

/-- C1: for every file size the five data-shard sizes sum to the file size,
the parity-shard size is the maximum of the five data-shard sizes, and at
file size 1,000,080 every shard (data and parity) has size 200,016. -/
theorem raidPartSize_sum_and_parity (n : Nat) :
    raidPartSize 0 n + raidPartSize 1 n + raidPartSize 2 n + raidPartSize 3 n
      + raidPartSize 4 n = n
    ∧ raidPartSize 5 n
        = max (max (max (max (raidPartSize 0 n) (raidPartSize 1 n)) (raidPartSize 2 n))
            (raidPartSize 3 n)) (raidPartSize 4 n)
    ∧ (raidPartSize 0 1000080 = 200016 ∧ raidPartSize 1 1000080 = 200016
        ∧ raidPartSize 2 1000080 = 200016 ∧ raidPartSize 3 1000080 = 200016
        ∧ raidPartSize 4 1000080 = 200016 ∧ raidPartSize 5 1000080 = 200016) := by
  refine ⟨?_, ?_, by norm_num [raidPartSize, RAIDLINE, RAIDSECTOR, RAIDPARTS]⟩
  · norm_num [raidPartSize, RAIDLINE, RAIDSECTOR, RAIDPARTS]
    omega
  · norm_num [raidPartSize, RAIDLINE, RAIDSECTOR, RAIDPARTS]

/-- Recovering the missing sector reproduces exactly the dropped data. -/
theorem recoveredData_eq (d : Fin (RAIDPARTS - 1) → Sector) (m : Fin RAIDPARTS) :
    recoveredData d m = d := by
  unfold recoveredData
  split
  case isTrue h =>
    have hrec : recoverSectorFromParity ((lineSectors d).eraseIdx m.val) = d ⟨m.val, h⟩ := by
      funext j
      simp only [RAIDPARTS] at h
      interval_cases hm : m.val <;>
        · simp only [recoverSectorFromParity, lineSectors, paritySector, RAIDPARTS,
            List.finRange, List.ofFn, Fin.foldr_succ, Fin.foldr_zero, List.map,
            List.eraseIdx, List.cons_append, List.nil_append, List.foldr]
          simp only [natXor_eq]
          simp [Nat.xor_zero, Nat.zero_xor, xor_cancel_left, xor_left_comm,
            Nat.xor_assoc, Nat.xor_self, Nat.xor_comm]
    rw [hrec, Function.update_eq_self]
  case isFalse h => rfl

/-- C2: for every stripe line and every single missing shard sector (data or
parity), XOR-recovering the missing sector and combining yields output
byte-for-byte identical to the fast path's output on the full line. -/
theorem combine_after_recovery_eq_fast_path
    (d : Fin (RAIDPARTS - 1) → Sector) (m : Fin RAIDPARTS) :
    combineRaidLine (recoveredData d m) = combineRaidLine d := by
  rw [recoveredData_eq]

/-- C3: for every resume position (aligned or not) the first output piece
begins exactly at the resume position, every delivered byte `k` of it is the
file byte at `resumepos + k` (so nothing before the resume point is
delivered and nothing at or after it is skipped or duplicated across the
stripe-line alignment boundary), the piece runs to the end of the acquired
whole lines, and the resume-skip count satisfies
`0 ≤ resumewastedbytes < RAIDLINE`. -/
theorem resume_alignment (file : Nat → Nat) (resumepos nlines : Nat) :
    (firstOutputPiece file resumepos nlines).pos = resumepos
    ∧ resumewastedbytes resumepos < RAIDLINE
    ∧ (firstOutputPiece file resumepos nlines).buf.length
        = nlines * RAIDLINE - resumewastedbytes resumepos
    ∧ (∀ k, k < (firstOutputPiece file resumepos nlines).buf.length →
        (firstOutputPiece file resumepos nlines).buf.getD k 0 = file (resumepos + k)) := by
  refine ⟨?_, ?_, ?_, ?_⟩
  · simp only [firstOutputPiece, resumewastedbytes, RAIDLINE, RAIDSECTOR, RAIDPARTS]
    omega
  · simp only [resumewastedbytes, RAIDLINE, RAIDSECTOR, RAIDPARTS]
    omega
  · simp [firstOutputPiece, resumewastedbytes]
  · intro k hk
    simp only [firstOutputPiece, resumewastedbytes, List.length_drop,
      List.length_map, List.length_range] at hk ⊢
    have hlt : resumepos % RAIDLINE + k < nlines * RAIDLINE := by omega
    rw [List.getD_eq_getElem?_getD, List.getElem?_drop, List.getElem?_map,
      List.getElem?_range hlt]
    have harg : resumepos - resumepos % RAIDLINE + (resumepos % RAIDLINE + k)
        = resumepos + k := by
      have := Nat.mod_le resumepos RAIDLINE
      omega
    simp [harg]

/-- A combine invocation on a state with no whole stripe line available on
every shard does nothing and produces nothing. -/
theorem combineRaidParts_of_no_line {s : CombineState}
    (h : combineLinesAvailable s = 0) : combineRaidParts s = (s, none) := by
  simp [combineRaidParts, h]

/-- After a combine invocation no whole stripe line is left available on
every shard: combine consumed everything consumable. -/
theorem min6_sub (a b c d e f L : Nat)
    (hL : L = min (a / 16) (min (b / 16) (min (c / 16) (min (d / 16) (min (e / 16) (f / 16)))))) :
    min ((a - L * 16) / 16) (min ((b - L * 16) / 16) (min ((c - L * 16) / 16)
      (min ((d - L * 16) / 16) (min ((e - L * 16) / 16) ((f - L * 16) / 16))))) = 0 := by
  omega

theorem combineLinesAvailable_after (s : CombineState) :
    combineLinesAvailable (combineRaidParts s).fst = 0 := by
  by_cases h : combineLinesAvailable s = 0
  · rw [combineRaidParts_of_no_line h]
    exact h
  · simp only [combineRaidParts, if_neg h]
    have hgoal := min6_sub ((s.raidinputparts ⟨0, by decide⟩).length)
      ((s.raidinputparts ⟨1, by decide⟩).length) ((s.raidinputparts ⟨2, by decide⟩).length)
      ((s.raidinputparts ⟨3, by decide⟩).length) ((s.raidinputparts ⟨4, by decide⟩).length)
      ((s.raidinputparts ⟨5, by decide⟩).length) (combineLinesAvailable s)
      (by simp only [combineLinesAvailable, RAIDSECTOR])
    simpa only [combineLinesAvailable, List.length_drop, RAIDSECTOR] using hgoal

/-- C5: a second `combineRaidParts` with no `submitBuffer` in between
produces no output piece and leaves the whole combine state — every shard's
input queue, the shard read cursor `raidpartspos` and the output cursor
`outputfilepos` — unchanged; hence every later call is equally a no-op. -/
theorem combineRaidParts_idempotent (s : CombineState) :
    combineRaidParts (combineRaidParts s).fst = ((combineRaidParts s).fst, none) :=
  combineRaidParts_of_no_line (combineLinesAvailable_after s)

/-- C4: starting from a connection with error count 0 in a non-failed
session, three consecutive errors with no intervening successful fetch give
recoverable verdicts twice and then a non-recoverable verdict, leaving the
session terminally failed with no further fetches allowed; whereas after a
successful fetch for the (then excluded) connection the error count is back
to 0, the exclusion is lifted, and two further errors are again recoverable
without failing the session. -/
theorem error_escalation (s : BufState) (conn : Fin RAIDPARTS)
    (hcount : s.raidHttpGetErrorCount conn = 0)
    (hok : s.transferFailed = false) :
    let e1 := tryRaidHttpGetErrorRecovery s conn
    let e2 := tryRaidHttpGetErrorRecovery e1.fst conn
    let e3 := tryRaidHttpGetErrorRecovery e2.fst conn
    let sOk := raidFetchSucceeded e2.fst conn
    let f1 := tryRaidHttpGetErrorRecovery sOk conn
    let f2 := tryRaidHttpGetErrorRecovery f1.fst conn
    (e1.snd = true ∧ e2.snd = true)
    ∧ (e3.snd = false ∧ e3.fst.transferFailed = true
        ∧ furtherFetchesAllowed e3.fst = false)
    ∧ (sOk.raidHttpGetErrorCount conn = 0 ∧ sOk.useOnlyFiveRaidConnections = false)
    ∧ (f1.snd = true ∧ f2.snd = true ∧ f2.fst.transferFailed = false) := by
  simp only [tryRaidHttpGetErrorRecovery, raidFetchSucceeded, furtherFetchesAllowed,
    raidErrorThreshold, hcount, Function.update_same, Function.update_idem]
  norm_num [hok]

/-- C4 witness: at the initial manager state and connection 3, the
hypotheses hold and three straight errors terminally fail the session. -/
theorem error_escalation_witness :
    initBufState.raidHttpGetErrorCount ⟨3, by decide⟩ = 0
    ∧ initBufState.transferFailed = false
    ∧ (let e1 := tryRaidHttpGetErrorRecovery initBufState ⟨3, by decide⟩
       let e2 := tryRaidHttpGetErrorRecovery e1.fst ⟨3, by decide⟩
       let e3 := tryRaidHttpGetErrorRecovery e2.fst ⟨3, by decide⟩
       let sOk := raidFetchSucceeded e2.fst ⟨3, by decide⟩
       let f1 := tryRaidHttpGetErrorRecovery sOk ⟨3, by decide⟩
       let f2 := tryRaidHttpGetErrorRecovery f1.fst ⟨3, by decide⟩
       (e1.snd = true ∧ e2.snd = true)
       ∧ (e3.snd = false ∧ e3.fst.transferFailed = true
           ∧ furtherFetchesAllowed e3.fst = false)
       ∧ (sOk.raidHttpGetErrorCount ⟨3, by decide⟩ = 0
           ∧ sOk.useOnlyFiveRaidConnections = false)
       ∧ (f1.snd = true ∧ f2.snd = true ∧ f2.fst.transferFailed = false)) :=
  ⟨rfl, rfl, error_escalation initBufState ⟨3, by decide⟩ rfl rfl⟩

/-- C6: the planner's pause flag obeys the hysteresis policy with the
header's constants: a connection more than 8 chunks ahead of the slowest
active peer is marked paused, one fewer than 4 chunks ahead is unpaused,
and anywhere inside the band [4, 8] the flag keeps its previous value — so
a single extra chunk inside the band never flips it, and while the lead
stays at or above the unpause point a paused connection stays paused. -/
theorem pause_hysteresis (p : Bool) (lead : Nat) :
    RaidReadAheadChunksPausePoint = 8 ∧ RaidReadAheadChunksUnpausePoint = 4
    ∧ (RaidReadAheadChunksPausePoint < lead → updateConnectionPaused p lead = true)
    ∧ (lead < RaidReadAheadChunksUnpausePoint → updateConnectionPaused p lead = false)
    ∧ (RaidReadAheadChunksUnpausePoint ≤ lead → lead ≤ RaidReadAheadChunksPausePoint →
        updateConnectionPaused p lead = p)
    ∧ (∀ leads : List Nat, (∀ l ∈ leads, RaidReadAheadChunksUnpausePoint ≤ l) →
        leads.foldl updateConnectionPaused true = true) := by
  refine ⟨rfl, rfl, ?_, ?_, ?_, ?_⟩
  · intro h
    cases p <;>
      simp_all [updateConnectionPaused, RaidReadAheadChunksPausePoint,
        RaidReadAheadChunksUnpausePoint] <;> try omega
  · intro h
    cases p <;>
      simp_all [updateConnectionPaused, RaidReadAheadChunksPausePoint,
        RaidReadAheadChunksUnpausePoint] <;> try omega
  · intro h1 h2
    cases p <;>
      simp_all [updateConnectionPaused, RaidReadAheadChunksPausePoint,
        RaidReadAheadChunksUnpausePoint]
  · intro leads h
    induction leads with
    | nil => rfl
    | cons a t ih =>
      have ha : RaidReadAheadChunksUnpausePoint ≤ a := h a (by simp)
      have hstep : updateConnectionPaused true a = true := by
        simp only [updateConnectionPaused, if_pos rfl]
        simpa using ha
      simp only [List.foldl, hstep]
      exact ih (fun l hl => h l (by simp [hl]))

/-- C6 witness: a lead of 9 chunks pauses, a lead of 3 unpauses, and a
paused connection with a lead of 6 (inside the band) stays paused. -/
theorem pause_hysteresis_witness :
    (RaidReadAheadChunksPausePoint < 9 ∧ updateConnectionPaused false 9 = true)
    ∧ (3 < RaidReadAheadChunksUnpausePoint ∧ updateConnectionPaused true 3 = false)
    ∧ (RaidReadAheadChunksUnpausePoint ≤ 6 ∧ 6 ≤ RaidReadAheadChunksPausePoint
        ∧ updateConnectionPaused true 6 = true) :=
  ⟨⟨by decide, (pause_hysteresis false 9).2.2.1 (by decide)⟩,
   ⟨by decide, (pause_hysteresis true 3).2.2.2.1 (by decide)⟩,
   ⟨by decide, by decide, (pause_hysteresis true 6).2.2.2.2.1 (by decide) (by decide)⟩⟩

/-- C7: a 6-entry source list selects raid mode and a 1-entry list selects
non-raid mode at `setIsRaid`, the decision is then known, and no later
operation — URL refresh included — changes the value reported by `isRaid`. -/
theorem raid_mode_decided_once (s : BufState) (urls : List String) (resumepos : Nat) :
    let s' := setIsRaid urls resumepos s
    (urls.length = RAIDPARTS → isRaid s' = true)
    ∧ (urls.length = 1 → isRaid s' = false)
    ∧ s'.raidKnown = true
    ∧ (∀ urls2, isRaid (updateUrlsAndResetPos s' urls2) = isRaid s')
    ∧ (∀ conn piece, isRaid (submitBuffer s' conn piece) = isRaid s')
    ∧ (∀ c, isRaid (getAsyncOutputBufferPointer s' c).snd = isRaid s')
    ∧ (∀ c, isRaid (bufferWriteCompleted s' c) = isRaid s')
    ∧ (∀ conn, isRaid (tryRaidHttpGetErrorRecovery s' conn).fst = isRaid s')
    ∧ (∀ conn, isRaid (raidFetchSucceeded s' conn) = isRaid s') := by
  refine ⟨?_, ?_, rfl, fun _ => rfl, ?_, fun _ => rfl, fun _ => rfl, ?_, fun _ => rfl⟩
  · intro h
    simp [setIsRaid, isRaid, h]
  · intro h
    simp [setIsRaid, isRaid, h, RAIDPARTS]
  · intro conn piece
    unfold submitBuffer
    split <;> rfl
  · intro conn
    by_cases h : (setIsRaid urls resumepos s).raidHttpGetErrorCount conn + 1 < raidErrorThreshold <;>
      simp [tryRaidHttpGetErrorRecovery, isRaid, h]

/-- C7 witness: six sources select raid mode and the mode survives a URL
refresh; one source selects non-raid mode. -/
theorem raid_mode_decided_once_witness :
    (["a", "b", "c", "d", "e", "f"].length = RAIDPARTS
      ∧ isRaid (setIsRaid ["a", "b", "c", "d", "e", "f"] 0 initBufState) = true)
    ∧ (["a"].length = 1 ∧ isRaid (setIsRaid ["a"] 0 initBufState) = false)
    ∧ isRaid (updateUrlsAndResetPos (setIsRaid ["a", "b", "c", "d", "e", "f"] 0 initBufState) ["u", "v", "w", "x", "y", "z"])
        = isRaid (setIsRaid ["a", "b", "c", "d", "e", "f"] 0 initBufState) :=
  ⟨⟨by decide, (raid_mode_decided_once initBufState ["a", "b", "c", "d", "e", "f"] 0).1 (by decide)⟩,
   ⟨by decide, (raid_mode_decided_once initBufState ["a"] 0).2.1 (by decide)⟩,
   (raid_mode_decided_once initBufState ["a", "b", "c", "d", "e", "f"] 0).2.2.2.1 ["u", "v", "w", "x", "y", "z"]⟩

/-- In every manager state at most one shard is excluded. -/
theorem excludedShards_card (s : BufState) : (excludedShards s).card ≤ 1 := by
  unfold excludedShards
  split <;> simp

/-- C8: at most one shard is ever treated as excluded: in degraded
five-connection mode the excluded set is exactly the recorded unused
connection (a single shard), otherwise it is empty, and every operation —
error recovery, a successful fetch, a submit — leaves at most one shard
excluded (a new exclusion replaces the old one, it is never added to it). -/
theorem at_most_one_excluded (s : BufState) :
    (excludedShards s).card ≤ 1
    ∧ (s.useOnlyFiveRaidConnections = true → excludedShards s = {s.unusedRaidConnection})
    ∧ (∀ conn, (excludedShards (tryRaidHttpGetErrorRecovery s conn).fst).card ≤ 1)
    ∧ (∀ conn, (tryRaidHttpGetErrorRecovery s conn).snd = true
        → excludedShards (tryRaidHttpGetErrorRecovery s conn).fst = {conn})
    ∧ (∀ conn, (excludedShards (raidFetchSucceeded s conn)).card ≤ 1)
    ∧ (∀ conn piece, (excludedShards (submitBuffer s conn piece)).card ≤ 1) := by
  refine ⟨excludedShards_card s, ?_, fun conn => excludedShards_card _, ?_,
    fun conn => excludedShards_card _, fun conn piece => excludedShards_card _⟩
  · intro h
    simp [excludedShards, h]
  · intro conn hrec
    by_cases h : s.raidHttpGetErrorCount conn + 1 < raidErrorThreshold
    · simp [tryRaidHttpGetErrorRecovery, excludedShards, h]
    · simp [tryRaidHttpGetErrorRecovery, h] at hrec

/-- C8 witness: after one recoverable error on connection 2 exactly that
connection is excluded, and the general bound holds at the initial state. -/
theorem at_most_one_excluded_witness :
    (excludedShards initBufState).card ≤ 1
    ∧ ((tryRaidHttpGetErrorRecovery initBufState ⟨2, by decide⟩).fst.useOnlyFiveRaidConnections = true
        → excludedShards (tryRaidHttpGetErrorRecovery initBufState ⟨2, by decide⟩).fst
            = {(tryRaidHttpGetErrorRecovery initBufState ⟨2, by decide⟩).fst.unusedRaidConnection}) :=
  ⟨(at_most_one_excluded initBufState).1,
   (at_most_one_excluded (tryRaidHttpGetErrorRecovery initBufState ⟨2, by decide⟩).fst).2.1⟩

/-- C9: `getAsyncOutputBufferPointer` does not modify the manager state, a
repeated call returns the same piece, and neither a submit on any
connection nor a write-completion on a different connection changes the
piece it returns — the produced output stays re-accessible for retries
until its own `bufferWriteCompleted`. -/
theorem output_buffer_stable (s : BufState) (conn : Nat) :
    (getAsyncOutputBufferPointer s conn).snd = s
    ∧ (getAsyncOutputBufferPointer (getAsyncOutputBufferPointer s conn).snd conn).fst
        = (getAsyncOutputBufferPointer s conn).fst
    ∧ (∀ c piece, (getAsyncOutputBufferPointer (submitBuffer s c piece) conn).fst
        = (getAsyncOutputBufferPointer s conn).fst)
    ∧ (∀ c, c ≠ conn → (getAsyncOutputBufferPointer (bufferWriteCompleted s c) conn).fst
        = (getAsyncOutputBufferPointer s conn).fst) := by
  refine ⟨rfl, rfl, ?_, ?_⟩
  · intro c piece
    unfold getAsyncOutputBufferPointer submitBuffer
    split <;> rfl
  · intro c hc
    simp only [getAsyncOutputBufferPointer, bufferWriteCompleted]
    rw [if_neg (fun h => hc h.symm)]

/-- C9 witness: with a piece produced for connection 1, reading it twice
gives the same piece without touching the state, and completing the write
of connection 0 does not disturb it. -/
theorem output_buffer_stable_witness :
    ((getAsyncOutputBufferPointer initBufState 1).snd = initBufState)
    ∧ ((0 : Nat) ≠ 1
        ∧ (getAsyncOutputBufferPointer (bufferWriteCompleted initBufState 0) 1).fst
            = (getAsyncOutputBufferPointer initBufState 1).fst) :=
  ⟨(output_buffer_stable initBufState 1).1,
   by decide, (output_buffer_stable initBufState 1).2.2.2 0 (by decide)⟩

/-- C10: a URL refresh via `updateUrlsAndResetPos` stores the new URL list
and moves each connection's request cursor to the end of that shard's
buffered data (so nothing already fetched is re-requested), while the
buffered input pieces, the recovery stores, the output buffers, both
reconstruction cursors, the resume-skip count, the raid mode, the
pause flags, the degraded-mode state and the error counters are all
unchanged — no already-fetched byte is lost. -/
theorem updateUrls_frame (s : BufState) (urls : List String) :
    let s' := updateUrlsAndResetPos s urls
    s'.tempurls = urls
    ∧ s'.is_raid = s.is_raid
    ∧ s'.raidKnown = s.raidKnown
    ∧ s'.connectionPaused = s.connectionPaused
    ∧ s'.raidinputparts = s.raidinputparts
    ∧ s'.raidinputparts_recovery = s.raidinputparts_recovery
    ∧ s'.asyncoutputbuffers = s.asyncoutputbuffers
    ∧ s'.raidpartspos = s.raidpartspos
    ∧ s'.outputfilepos = s.outputfilepos
    ∧ s'.resumewastedbytes = s.resumewastedbytes
    ∧ s'.useOnlyFiveRaidConnections = s.useOnlyFiveRaidConnections
    ∧ s'.unusedRaidConnection = s.unusedRaidConnection
    ∧ s'.raidHttpGetErrorCount = s.raidHttpGetErrorCount
    ∧ s'.transferFailed = s.transferFailed
    ∧ (∀ i, s'.raidrequestpartpos i = s.raidpartspos + inputPartsLen (s.raidinputparts i)) :=
  ⟨rfl, rfl, rfl, rfl, rfl, rfl, rfl, rfl, rfl, rfl, rfl, rfl, rfl, rfl, fun _ => rfl⟩

end CloudRaid
